import Mathlib

/-!
Verification of the Bug Aggregation & Majority-Voting Engine of the
claude-code-bughunter repository.

The definitions below are a shallow embedding of the TypeScript source:
  * `createBugSimilarityKeys`, `createNullSentinelKey` embed src/types.ts
  * `applyMajorityVoting` (with its helpers `processBug`, `votingState`)
    embeds `Analyzer.applyMajorityVoting` in src/analyzer.ts
  * `calculateRiskLevel` embeds `Analyzer.calculateRiskLevel`
JavaScript `Map` objects (insertion-ordered, get/set by string key) are
modelled as association lists with `mapGet`/`mapSet`; JavaScript
`Math.floor` division of integers is `Int.fdiv`; `randomUUID` is modelled
as an explicit supply of identifiers `ids : Nat → String` consumed in
construction order.
-/

-- ============================================================
-- Data model (src/types.ts)
-- ============================================================

inductive BugSeverity where
  | low
  | medium
  | high
  | critical
deriving DecidableEq, Repr

inductive RiskLevel where
  | low
  | medium
  | high
deriving DecidableEq, Repr

structure Bug where
  id : String
  title : String
  severity : BugSeverity
  description : String
  filePath : String
  startLine : Option Int
  endLine : Option Int
deriving DecidableEq, Repr

def LINE_BUCKET_SIZE : Int := 5

def TITLE_SIMILARITY_LENGTH : Nat := 50

-- JavaScript's String.prototype.toLowerCase, character by character.
def toLowerStr (s : String) : String :=
  String.mk (s.data.map Char.toLower)

-- JavaScript's String.prototype.trim: drop whitespace from both ends.
def trimStr (s : String) : String :=
  String.mk
    (((s.data.dropWhile Char.isWhitespace).reverse.dropWhile
        Char.isWhitespace).reverse)

-- JavaScript's String.prototype.substring(0, n).
def takeStr (s : String) (n : Nat) : String :=
  String.mk (s.data.take n)

-- Embeds createBugSimilarityKeys (src/types.ts lines 119-140).
def createBugSimilarityKeys (bug : Bug) : List String :=
  let normalizedTitle := trimStr (toLowerStr bug.title)
  let normalizedFile := trimStr (toLowerStr bug.filePath)
  let titleFingerprint := takeStr normalizedTitle TITLE_SIMILARITY_LENGTH
  match bug.startLine with
  | none => [normalizedFile ++ ":null:" ++ titleFingerprint]
  | some line =>
    let primaryBucket := Int.fdiv line LINE_BUCKET_SIZE
    let shiftedBucket :=
      Int.fdiv (line + Int.fdiv LINE_BUCKET_SIZE 2) LINE_BUCKET_SIZE
    let primaryKey :=
      normalizedFile ++ ":" ++ toString primaryBucket ++ ":" ++ titleFingerprint
    if shiftedBucket ≠ primaryBucket then
      let shiftedKey :=
        normalizedFile ++ ":" ++ toString shiftedBucket ++ ":" ++ titleFingerprint
      [primaryKey, shiftedKey]
    else
      [primaryKey]

-- Embeds createNullSentinelKey (src/types.ts lines 145-150).
def createNullSentinelKey (bug : Bug) : String :=
  let normalizedTitle := trimStr (toLowerStr bug.title)
  let normalizedFile := trimStr (toLowerStr bug.filePath)
  let titleFingerprint := takeStr normalizedTitle TITLE_SIMILARITY_LENGTH
  normalizedFile ++ ":null:" ++ titleFingerprint

set_option maxRecDepth 10000

-- ============================================================
-- JavaScript Map modelled as an insertion-ordered association list
-- ============================================================

def mapGet {α : Type} : List (String × α) → String → Option α
  | [], _ => none
  | p :: ps, k => if p.1 = k then some p.2 else mapGet ps k

-- Map.prototype.set: replace in place when the key is present (JS Maps keep
-- the original position), append otherwise.
def mapSet {α : Type} : List (String × α) → String → α → List (String × α)
  | [], k, v => [(k, v)]
  | p :: ps, k, v => if p.1 = k then (k, v) :: ps else p :: mapSet ps k v

-- ============================================================
-- Vote aggregation (src/analyzer.ts, applyMajorityVoting)
-- ============================================================

-- A raw per-pass report tuple as produced by one analysis pass
-- (ClaudeAnalysisOutput.bugs element; startLine/endLine optional).
structure RawBug where
  title : String
  severity : BugSeverity
  description : String
  filePath : String
  startLine : Option Int
  endLine : Option Int
deriving DecidableEq, Repr

-- AnalysisPassResult: passIndex, output bug list, and whether the pass
-- recorded an error.
structure AnalysisPassResult where
  passIndex : Nat
  bugs : List RawBug
  failed : Bool
deriving Repr

-- Bug construction at src/analyzer.ts lines 388-396; the freshly assigned
-- randomUUID() is modelled by the explicit identifier argument.
def mkBug (id : String) (raw : RawBug) : Bug :=
  { id := id
    title := raw.title
    severity := raw.severity
    description := raw.description
    filePath := raw.filePath
    startLine := raw.startLine
    endLine := raw.endLine }

structure BugWithVotes where
  bug : Bug
  voteCount : Nat
  passIndices : List Nat
deriving DecidableEq, Repr

structure VoteState where
  bugVotes : List (String × BugWithVotes)
  keyAlias : List (String × String)
deriving DecidableEq, Repr

def VoteState.empty : VoteState := { bugVotes := [], keyAlias := [] }

-- The canonical-key lookup of src/analyzer.ts lines 404-427: first try the
-- candidate keys against the alias map in order; for line-based bugs fall
-- back to the null-sentinel key, accepted only when the existing entry's
-- representative itself has no line number.
def findCanonicalKey (s : VoteState) (bug : Bug) : Option String :=
  match (createBugSimilarityKeys bug).findSome?
      (fun k => mapGet s.keyAlias k) with
  | some c => some c
  | none =>
    match bug.startLine with
    | none => none
    | some _ =>
      let nullKey := createNullSentinelKey bug
      match mapGet s.keyAlias nullKey with
      | none => none
      | some nullAlias =>
        match mapGet s.bugVotes nullAlias with
        | some existingEntry =>
          if existingEntry.bug.startLine = none then some nullAlias else none
        | none => none

-- The update applied to an existing cluster entry when a report merges into
-- it, src/analyzer.ts lines 431-439: one vote per pass per cluster, then
-- prefer a line-based representative over a null-line placeholder.
def mergeEntry (existing : BugWithVotes) (passIndex : Nat) (bug : Bug) :
    BugWithVotes :=
  let voted :=
    if existing.passIndices.contains passIndex then existing
    else
      { existing with
        voteCount := existing.voteCount + 1
        passIndices := existing.passIndices ++ [passIndex] }
  if voted.bug.startLine = none ∧ bug.startLine ≠ none then
    { voted with bug := bug }
  else voted

-- Processing of one constructed Bug, src/analyzer.ts lines 398-469.
def processBug (s : VoteState) (passIndex : Nat) (bug : Bug) : VoteState :=
  let candidateKeys := createBugSimilarityKeys bug
  match candidateKeys with
  | [] => s
  | k0 :: _ =>
    let merged :=
      match findCanonicalKey s bug with
      | some canonicalKey =>
        match mapGet s.bugVotes canonicalKey with
        | none => (s, canonicalKey)
        | some existing =>
          -- register new candidate keys as aliases (lines 440-446)
          let keyAlias :=
            candidateKeys.foldl
              (fun m k =>
                if (mapGet m k).isSome then m else mapSet m k canonicalKey)
              s.keyAlias
          ({ bugVotes :=
               mapSet s.bugVotes canonicalKey (mergeEntry existing passIndex bug)
             keyAlias := keyAlias }, canonicalKey)
      | none =>
        -- new entry (lines 447-459)
        let canonicalKey := k0
        let entry : BugWithVotes :=
          { bug := bug, voteCount := 1, passIndices := [passIndex] }
        let keyAlias :=
          candidateKeys.foldl (fun m k => mapSet m k canonicalKey) s.keyAlias
        ({ bugVotes := mapSet s.bugVotes canonicalKey entry
           keyAlias := keyAlias }, canonicalKey)
    -- null-sentinel alias registration for line-based bugs (lines 461-469)
    let s' := merged.1
    let canonicalKey := merged.2
    match bug.startLine with
    | none => s'
    | some _ =>
      let nullKey := createNullSentinelKey bug
      if (mapGet s'.keyAlias nullKey).isSome then s'
      else { s' with keyAlias := mapSet s'.keyAlias nullKey canonicalKey }

-- One successful pass's contribution: bugs in arrival order, each
-- constructed with the next fresh identifier.
def processPassBugs (ids : Nat → String) (acc : VoteState × Nat)
    (r : AnalysisPassResult) : VoteState × Nat :=
  r.bugs.foldl
    (fun (p : VoteState × Nat) raw =>
      (processBug p.1 r.passIndex (mkBug (ids p.2) raw), p.2 + 1))
    acc

-- The cluster state after the main loop of applyMajorityVoting
-- (src/analyzer.ts lines 383-471).
def votingState (ids : Nat → String) (passResults : List AnalysisPassResult) :
    VoteState :=
  ((passResults.filter (fun r => !r.failed)).foldl (processPassBugs ids)
      (VoteState.empty, 0)).1

-- The full result of applyMajorityVoting; `warned` records whether the
-- unreachable-threshold warning (logger.warn at lines 371-377) was emitted.
structure VotingResult where
  bugs : List Bug
  warned : Bool
deriving DecidableEq, Repr

-- Embeds applyMajorityVoting (src/analyzer.ts lines 357-484).
def applyMajorityVoting (ids : Nat → String)
    (passResults : List AnalysisPassResult) (voteThreshold : Nat) :
    VotingResult :=
  let successfulResults := passResults.filter (fun r => !r.failed)
  if successfulResults.length = 0 then
    { bugs := [], warned := false }
  else if successfulResults.length < voteThreshold then
    { bugs := [], warned := true }
  else
    let st := votingState ids passResults
    { bugs :=
        (st.bugVotes.filter
            (fun p => voteThreshold ≤ p.2.voteCount)).map (·.2.bug)
      warned := false }

-- ============================================================
-- Risk level (src/analyzer.ts, calculateRiskLevel, lines 547-565)
-- ============================================================

def calculateRiskLevel (bugs : List Bug) : RiskLevel :=
  if bugs.length = 0 then
    .low
  else
    let hasCritical := bugs.any (fun b => b.severity = .critical)
    let hasHigh := bugs.any (fun b => b.severity = .high)
    let criticalOrHighCount :=
      (bugs.filter
          (fun b => b.severity = .critical ∨ b.severity = .high)).length
    if hasCritical ∨ criticalOrHighCount ≥ 2 then
      .high
    else if hasHigh ∨ bugs.length ≥ 3 then
      .medium
    else
      .low

-- The spec's risk rule, §4.4, stated in the spec's own wording for
-- comparison with calculateRiskLevel: priority order with first match
-- winning; any critical present, or two-or-more critical/high combined,
-- yields high; else any high present, or three-or-more reports, yields
-- medium; else low.
def riskLevelSpec (bugs : List Bug) : RiskLevel :=
  if bugs.any (fun b => b.severity = .critical) ∨
      2 ≤ (bugs.filter
          (fun b => b.severity = .critical ∨ b.severity = .high)).length then
    .high
  else if bugs.any (fun b => b.severity = .high) ∨ 3 ≤ bugs.length then
    .medium
  else
    .low

-- ============================================================
-- Cross-source merger (spec §4.3)
-- ============================================================

-- Modelled from the spec: the Cross-Source Merger of §4.3 has no
-- implementation under src/ (no merge function over two bug lists exists in
-- the sources), so it is modelled from the spec's words: seed a
-- key-membership set and a null-origin set from every report in A (all
-- candidate keys plus the null-sentinel key, marking null-origin where the
-- report itself has no line number).
structure MergeState where
  keys : List String
  nullOrigin : List String
deriving DecidableEq, Repr

-- Modelled from the spec: register one report's keys, "the same way a new
-- cluster would in §4.2" (all candidate keys plus the null-sentinel key,
-- tagged null-origin if applicable).
def seedFromReport (s : MergeState) (bug : Bug) : MergeState :=
  let candidateKeys := createBugSimilarityKeys bug
  let nullKey := createNullSentinelKey bug
  { keys := s.keys ++ candidateKeys ++ [nullKey]
    nullOrigin :=
      if bug.startLine = none then s.nullOrigin ++ [nullKey]
      else s.nullOrigin }

-- Modelled from the spec: "For each report in B, in order: test its
-- candidate keys against the membership set; if no hit and it is
-- line-based, test the null-sentinel key against the null-origin set only;
-- if still no hit, append it to the output and register its keys."
def mergeStep (acc : List Bug × MergeState) (b : Bug) :
    List Bug × MergeState :=
  let candidateKeys := createBugSimilarityKeys b
  if candidateKeys.any (fun k => acc.2.keys.contains k) then acc
  else if b.startLine ≠ none ∧ createNullSentinelKey b ∈ acc.2.nullOrigin then
    acc
  else (acc.1 ++ [b], seedFromReport acc.2 b)

-- Modelled from the spec: §4.3, "given an already-accepted BugReport list A
-- and a second, independently produced list B, return A plus every element
-- of B that does not already match something in A"; there is no vote
-- counting.
def crossMergeBugs (A B : List Bug) : List Bug :=
  let s0 := A.foldl seedFromReport ⟨[], []⟩
  (B.foldl mergeStep (A, s0)).1

-- ============================================================
-- Auxiliary definitions used by the statements below
-- ============================================================

-- The per-cluster bookkeeping invariant: the recorded pass indices are
-- distinct and the vote count is exactly the number of recorded passes.
def clusterInvariant (s : VoteState) : Prop :=
  ∀ e ∈ s.bugVotes,
    e.2.passIndices.Nodup ∧ e.2.voteCount = e.2.passIndices.length

-- A concrete identifier supply standing in for randomUUID.
def sampleIds : Nat → String := fun n => Nat.repr n

-- Concrete report tuples used in the closed instances below.
def rbDup : RawBug :=
  { title := "Dup bug", severity := .low, description := "d",
    filePath := "a.ts", startLine := some 3, endLine := some 3 }

def rawNoStart : RawBug :=
  { title := "End only", severity := .low, description := "d",
    filePath := "f.ts", startLine := none, endLine := some 7 }

def rbNullDeref12 : RawBug :=
  { title := "Null deref", severity := .high, description := "d",
    filePath := "a.ts", startLine := some 12, endLine := none }

def rbNullDeref11 : RawBug :=
  { title := "Null deref", severity := .high, description := "d",
    filePath := "a.ts", startLine := some 11, endLine := none }

def rbLine9 : RawBug :=
  { title := "Null deref", severity := .high, description := "d",
    filePath := "a.ts", startLine := some 9, endLine := none }

def rbLine10 : RawBug :=
  { title := "Null deref", severity := .high, description := "d",
    filePath := "a.ts", startLine := some 10, endLine := none }

def rbLine2 : RawBug :=
  { title := "Null deref", severity := .high, description := "d",
    filePath := "a.ts", startLine := some 2, endLine := none }

def rbLine50 : RawBug :=
  { title := "Null deref", severity := .high, description := "d",
    filePath := "a.ts", startLine := some 50, endLine := none }

def bugA : Bug :=
  { id := "a1", title := "Race condition", severity := .medium,
    description := "d", filePath := "b.ts", startLine := some 20,
    endLine := none }

def bugB : Bug :=
  { id := "b1", title := "Race condition", severity := .medium,
    description := "d2", filePath := "b.ts", startLine := some 21,
    endLine := none }

def bugNullLine : Bug :=
  { id := "n1", title := "Missing check", severity := .low,
    description := "d", filePath := "c.ts", startLine := none,
    endLine := none }

def bugLine7 : Bug :=
  { id := "l7", title := "Missing check", severity := .low,
    description := "d", filePath := "c.ts", startLine := some 7,
    endLine := none }

-- Key sets depend only on the raw report fields, not on the assigned
-- identifier.
def keysOfRaw (r : RawBug) : List String :=
  createBugSimilarityKeys (mkBug "" r)

-- Erasing the freshly assigned identifier: used to state that aggregation
-- is deterministic up to the identifiers drawn from the supply.
def stripBug (b : Bug) : Bug := { b with id := "" }

def stripEntry (e : BugWithVotes) : BugWithVotes :=
  { e with bug := stripBug e.bug }

def stripVotes (m : List (String × BugWithVotes)) :
    List (String × BugWithVotes) :=
  m.map (fun p => (p.1, stripEntry p.2))

def stripState (s : VoteState) : VoteState :=
  { bugVotes := stripVotes s.bugVotes, keyAlias := s.keyAlias }

-- ============================================================
-- Decimal string rendering facts: a rendered line bucket can never read
-- as the "null" marker, so bucket keys and null-sentinel keys are disjoint
-- ============================================================

theorem mapGet_mapSet {α : Type} (m : List (String × α)) (k k' : String)
    (v : α) :
    mapGet (mapSet m k v) k' = if k = k' then some v else mapGet m k' := by
  induction m with
  | nil => simp [mapGet, mapSet]
  | cons p ps ih =>
    by_cases hpk : p.1 = k
    · by_cases hkk : k = k' <;> simp [mapGet, mapSet, hpk, hkk]
    · by_cases hpk' : p.1 = k'
      · have hne : ¬ k = k' := fun h => hpk (h ▸ hpk')
        simp [mapGet, mapSet, hpk, hpk', hne, Ne.symm hne]
      · simp [mapGet, mapSet, hpk, hpk', ih]

theorem digitChar_isDigit (m : Nat) (h : m < 10) :
    (Nat.digitChar m).isDigit = true := by
  interval_cases m <;> decide

theorem mem_toDigitsCore_ten (fuel : Nat) :
    ∀ (n : Nat) (ds : List Char) (c : Char),
      c ∈ Nat.toDigitsCore 10 fuel n ds → c ∈ ds ∨ c.isDigit = true := by
  induction fuel with
  | zero => intro n ds c h; exact Or.inl h
  | succ fuel ih =>
    intro n ds c h
    simp only [Nat.toDigitsCore] at h
    by_cases hz : n / 10 = 0
    · simp only [hz, if_pos rfl] at h
      rcases List.mem_cons.mp h with h1 | h1
      · exact Or.inr (h1 ▸ digitChar_isDigit _ (Nat.mod_lt _ (by decide)))
      · exact Or.inl h1
    · rw [if_neg hz] at h
      rcases ih (n / 10) (Nat.digitChar (n % 10) :: ds) c h with h1 | h1
      · rcases List.mem_cons.mp h1 with h2 | h2
        · exact Or.inr (h2 ▸ digitChar_isDigit _ (Nat.mod_lt _ (by decide)))
        · exact Or.inl h2
      · exact Or.inr h1

theorem natRepr_ne_null (n : Nat) : Nat.repr n ≠ "null" := by
  intro h
  have hdata : (Nat.toDigits 10 n) = ['n', 'u', 'l', 'l'] := by
    have := congrArg String.data h
    simpa [Nat.repr, List.asString] using this
  have hmem : 'n' ∈ Nat.toDigits 10 n := by rw [hdata]; simp
  rcases mem_toDigitsCore_ten _ _ _ _ hmem with h1 | h1
  · simp at h1
  · simp at h1

theorem intToString_ne_null (i : Int) : toString i ≠ "null" := by
  cases i with
  | ofNat m => exact natRepr_ne_null m
  | negSucc m =>
    intro h
    have hdata := congrArg String.data h
    simp only [toString] at hdata
    have hd : ("-" ++ Nat.repr (m + 1)).data = "null".data := hdata
    rw [String.data_append] at hd
    have hhead : '-' = 'n' := by
      have h2 := congrArg (fun l => l.head?) hd
      simp at h2
    exact absurd hhead (by decide)

theorem bucketKey_ne_nullKey (f p : String) (b : Int) :
    f ++ ":" ++ toString b ++ ":" ++ p ≠ f ++ ":null:" ++ p := by
  intro h
  have hd := congrArg String.data h
  simp only [String.data_append] at hd
  have h1 : (":".data ++ (toString b).data) ++ (":".data ++ p.data) =
      (":".data ++ "null".data) ++ (":".data ++ p.data) := by
    have h2 := List.append_cancel_left
      (by simpa [List.append_assoc] using hd :
        f.data ++ (":".data ++ ((toString b).data ++ (":".data ++ p.data))) =
        f.data ++ (":".data ++ ("null".data ++ (":".data ++ p.data))))
    simpa [List.append_assoc] using h2
  have h4 : (toString b).data = "null".data := by
    have h5 := List.append_cancel_left
      (by simpa [List.append_assoc] using h1 :
        ":".data ++ ((toString b).data ++ (":".data ++ p.data)) =
        ":".data ++ ("null".data ++ (":".data ++ p.data)))
    exact List.append_cancel_right (by simpa [List.append_assoc] using h5)
  exact intToString_ne_null b (by apply String.ext; simpa using h4)

-- ============================================================
-- Helper lemmas about the association-list Map model and the
-- aggregation state
-- ============================================================

theorem mem_mapSet {α : Type} (m : List (String × α)) (k : String) (v : α)
    (e : String × α) (h : e ∈ mapSet m k v) : e ∈ m ∨ e = (k, v) := by
  induction m with
  | nil =>
    simp [mapSet] at h
    exact Or.inr h
  | cons p ps ih =>
    by_cases hp : p.1 = k
    · simp only [mapSet, if_pos hp] at h
      rcases List.mem_cons.mp h with h1 | h1
      · exact Or.inr h1
      · exact Or.inl (List.mem_cons_of_mem _ h1)
    · simp only [mapSet, if_neg hp] at h
      rcases List.mem_cons.mp h with h1 | h1
      · exact Or.inl (h1 ▸ List.mem_cons_self _ _)
      · rcases ih h1 with h2 | h2
        · exact Or.inl (List.mem_cons_of_mem _ h2)
        · exact Or.inr h2

theorem mapGet_mem {α : Type} (m : List (String × α)) (k : String) (v : α)
    (h : mapGet m k = some v) : (k, v) ∈ m := by
  induction m with
  | nil => simp [mapGet] at h
  | cons p ps ih =>
    by_cases hp : p.1 = k
    · simp only [mapGet, if_pos hp] at h
      have : p = (k, v) := by
        cases p
        simp_all
      exact this ▸ List.mem_cons_self _ _
    · simp only [mapGet, if_neg hp] at h
      exact List.mem_cons_of_mem _ (ih h)

theorem mergeEntry_good (existing : BugWithVotes) (p : Nat) (b : Bug)
    (h1 : existing.passIndices.Nodup)
    (h2 : existing.voteCount = existing.passIndices.length) :
    (mergeEntry existing p b).passIndices.Nodup ∧
      (mergeEntry existing p b).voteCount =
        (mergeEntry existing p b).passIndices.length := by
  unfold mergeEntry
  by_cases hc : existing.passIndices.contains p
  · simp only [hc, if_true]
    split <;> simp [h1, h2]
  · have hmem : p ∉ existing.passIndices := by
      simpa using hc
    simp only [hc, if_false, Bool.false_eq_true]
    split <;> simp [h1, h2, List.nodup_append, hmem]

theorem processBug_bugVotes_cases (s : VoteState) (p : Nat) (b : Bug) :
    (processBug s p b).bugVotes = s.bugVotes ∨
    (∃ c existing, mapGet s.bugVotes c = some existing ∧
      (processBug s p b).bugVotes =
        mapSet s.bugVotes c (mergeEntry existing p b)) ∨
    (∃ c, (processBug s p b).bugVotes =
        mapSet s.bugVotes c { bug := b, voteCount := 1, passIndices := [p] }) := by
  cases hk : createBugSimilarityKeys b with
  | nil =>
    refine Or.inl ?_
    simp [processBug, hk]
  | cons k0 rest =>
    cases hf : findCanonicalKey s b with
    | none =>
      refine Or.inr (Or.inr ⟨k0, ?_⟩)
      simp only [processBug, hk, hf]
      cases b.startLine with
      | none => rfl
      | some l => split <;> (try split) <;> rfl
    | some c =>
      cases hg : mapGet s.bugVotes c with
      | none =>
        refine Or.inl ?_
        simp only [processBug, hk, hf, hg]
        cases b.startLine with
        | none => rfl
        | some l => split <;> (try split) <;> rfl
      | some existing =>
        refine Or.inr (Or.inl ⟨c, existing, hg, ?_⟩)
        simp only [processBug, hk, hf, hg]
        cases b.startLine with
        | none => rfl
        | some l => split <;> (try split) <;> rfl

theorem processBug_invariant (s : VoteState) (p : Nat) (b : Bug)
    (h : clusterInvariant s) : clusterInvariant (processBug s p b) := by
  rcases processBug_bugVotes_cases s p b with hc | ⟨c, existing, hg, hc⟩ | ⟨c, hc⟩
  · intro e he
    exact h e (hc ▸ he)
  · intro e he
    rcases mem_mapSet _ _ _ _ (hc ▸ he) with h1 | h1
    · exact h e h1
    · have hex := h (c, existing) (mapGet_mem _ _ _ hg)
      have := mergeEntry_good existing p b hex.1 hex.2
      rw [h1]
      exact this
  · intro e he
    rcases mem_mapSet _ _ _ _ (hc ▸ he) with h1 | h1
    · exact h e h1
    · rw [h1]
      constructor
      · simp
      · simp

theorem votingState_invariant (ids : Nat → String)
    (passResults : List AnalysisPassResult) :
    clusterInvariant (votingState ids passResults) := by
  unfold votingState
  have main :
      ∀ (rs : List AnalysisPassResult) (acc : VoteState × Nat),
        clusterInvariant acc.1 →
        clusterInvariant ((rs.foldl (processPassBugs ids) acc).1) := by
    intro rs
    induction rs with
    | nil => intro acc h; exact h
    | cons r rs ih =>
      intro acc h
      refine ih _ ?_
      unfold processPassBugs
      have inner :
          ∀ (bs : List RawBug) (acc' : VoteState × Nat),
            clusterInvariant acc'.1 →
            clusterInvariant
              ((bs.foldl
                  (fun (p : VoteState × Nat) raw =>
                    (processBug p.1 r.passIndex (mkBug (ids p.2) raw),
                      p.2 + 1)) acc').1) := by
        intro bs
        induction bs with
        | nil => intro acc' h'; exact h'
        | cons raw bs ih' =>
          intro acc' h'
          exact ih' _ (processBug_invariant _ _ _ h')
      exact inner r.bugs acc h
  refine main _ _ ?_
  intro e he
  simp [VoteState.empty] at he

-- quick sanity checks of kernel evaluation
example :
    createBugSimilarityKeys
      { id := "x", title := "Null deref", severity := .high,
        description := "d", filePath := "a.ts",
        startLine := some 12, endLine := none } =
      ["a.ts:2:null deref"] := by decide

example :
    createBugSimilarityKeys
      { id := "x", title := "Null deref", severity := .high,
        description := "d", filePath := "a.ts",
        startLine := some 9, endLine := none } =
      ["a.ts:1:null deref", "a.ts:2:null deref"] := by decide

theorem keys_mkBug (i : String) (r : RawBug) :
    createBugSimilarityKeys (mkBug i r) = keysOfRaw r := rfl

theorem keys_ne_nil (bug : Bug) : createBugSimilarityKeys bug ≠ [] := by
  unfold createBugSimilarityKeys
  cases bug.startLine with
  | none => simp
  | some l =>
    by_cases hc : (l + LINE_BUCKET_SIZE.fdiv 2).fdiv LINE_BUCKET_SIZE =
        l.fdiv LINE_BUCKET_SIZE <;>
      simp [hc]

theorem nullKey_not_mem_keys (bug : Bug) (l : Int)
    (h : bug.startLine = some l) :
    createNullSentinelKey bug ∉ createBugSimilarityKeys bug := by
  simp only [createBugSimilarityKeys, createNullSentinelKey, h]
  intro hmem
  split at hmem
  · rcases List.mem_cons.mp hmem with h1 | h1
    · exact bucketKey_ne_nullKey _ _ _ h1.symm
    · rcases List.mem_cons.mp h1 with h2 | h2
      · exact bucketKey_ne_nullKey _ _ _ h2.symm
      · simp at h2
  · rcases List.mem_cons.mp hmem with h1 | h1
    · exact bucketKey_ne_nullKey _ _ _ h1.symm
    · simp at h1

theorem mapGet_foldl_mapSet (ks : List String) (m : List (String × String))
    (c x : String) :
    mapGet (ks.foldl (fun m2 k => mapSet m2 k c) m) x =
      if x ∈ ks then some c else mapGet m x := by
  induction ks generalizing m with
  | nil => simp
  | cons a ks ih =>
    simp only [List.foldl_cons, ih, mapGet_mapSet]
    by_cases hx : x ∈ ks
    · simp [hx]
    · by_cases hax : a = x
      · simp [hx, hax]
      · have hxa : ¬ x = a := fun h => hax h.symm
        simp [hx, hax, hxa]

theorem processBug_bugVotes_merge (s : VoteState) (p : Nat) (b : Bug)
    (c : String) (e : BugWithVotes) (hf : findCanonicalKey s b = some c)
    (hg : mapGet s.bugVotes c = some e) :
    (processBug s p b).bugVotes = mapSet s.bugVotes c (mergeEntry e p b) := by
  cases hk : createBugSimilarityKeys b with
  | nil => exact absurd hk (keys_ne_nil b)
  | cons k0 rest =>
    simp only [processBug, hk, hf, hg]
    cases hb : b.startLine with
    | none => simp only [hb]
    | some l =>
      simp only [hb]
      split <;> rfl

theorem keys_of_none (b : Bug) (h : b.startLine = none) :
    createBugSimilarityKeys b = [createNullSentinelKey b] := by
  simp [createBugSimilarityKeys, createNullSentinelKey, h]

theorem processBug_new_bugVotes (s : VoteState) (p : Nat) (b : Bug)
    (k0 : String) (rest : List String)
    (hk : createBugSimilarityKeys b = k0 :: rest)
    (hf : findCanonicalKey s b = none) :
    (processBug s p b).bugVotes =
      mapSet s.bugVotes k0 { bug := b, voteCount := 1, passIndices := [p] } := by
  simp only [processBug, hk, hf]
  cases hsl : b.startLine with
  | none => simp only [hsl]
  | some l =>
    simp only [hsl]
    split <;> rfl

theorem processBug_new_keyAlias (s : VoteState) (p : Nat) (b : Bug)
    (k0 : String) (rest : List String)
    (hk : createBugSimilarityKeys b = k0 :: rest)
    (hf : findCanonicalKey s b = none) (x : String) :
    mapGet (processBug s p b).keyAlias x =
      if x ∈ createBugSimilarityKeys b then some k0
      else if b.startLine ≠ none ∧ x = createNullSentinelKey b ∧
          createNullSentinelKey b ∉ createBugSimilarityKeys b ∧
          mapGet s.keyAlias (createNullSentinelKey b) = none then some k0
      else mapGet s.keyAlias x := by
  have hfold : ∀ y, mapGet
      ((createBugSimilarityKeys b).foldl (fun m2 k => mapSet m2 k k0)
        s.keyAlias) y =
      if y ∈ createBugSimilarityKeys b then some k0
      else mapGet s.keyAlias y :=
    fun y => mapGet_foldl_mapSet (createBugSimilarityKeys b) s.keyAlias k0 y
  simp only [processBug, hk, hf]
  cases hsl : b.startLine with
  | none =>
    simp only [hsl]
    rw [← hk, hfold x]
    simp [hsl]
  | some l =>
    simp only [hsl]
    rw [← hk]
    by_cases hreg : mapGet
        ((createBugSimilarityKeys b).foldl (fun m2 k => mapSet m2 k k0)
          s.keyAlias) (createNullSentinelKey b) = none
    · rw [hreg]
      simp only [Option.isSome_none, Bool.false_eq_true, if_false]
      rw [mapGet_mapSet]
      have hcond := hfold (createNullSentinelKey b)
      rw [hreg] at hcond
      have hnm : createNullSentinelKey b ∉ createBugSimilarityKeys b := by
        intro hmem
        rw [if_pos hmem] at hcond
        exact Option.noConfusion hcond
      have hbase : mapGet s.keyAlias (createNullSentinelKey b) = none := by
        rw [if_neg hnm] at hcond
        exact hcond.symm
      by_cases hxNK : createNullSentinelKey b = x
      · subst hxNK
        simp [hnm, hsl, hbase]
      · rw [if_neg hxNK, hfold x]
        have hxNK2 : ¬ x = createNullSentinelKey b := fun h => hxNK h.symm
        simp [hxNK2]
    · obtain ⟨v, hv⟩ := Option.ne_none_iff_exists'.mp hreg
      rw [hv]
      simp only [Option.isSome_some, if_true]
      rw [hfold x]
      have hcond := hfold (createNullSentinelKey b)
      rw [hv] at hcond
      by_cases hxm : x ∈ createBugSimilarityKeys b
      · simp [hxm]
      · rw [if_neg hxm, if_neg hxm]
        by_cases hxNK : x = createNullSentinelKey b
        · subst hxNK
          rw [if_neg hxm] at hcond
          have hne : ¬ (mapGet s.keyAlias (createNullSentinelKey b) = none) := by
            rw [← hcond]
            simp
          simp [hne]
        · simp [hxNK]

theorem applyMajorityVoting_filter (ids : Nat → String)
    (passResults : List AnalysisPassResult) (T : Nat)
    (hT : T ≤ (passResults.filter (fun r => !r.failed)).length) :
    applyMajorityVoting ids passResults T =
      { bugs :=
          ((votingState ids passResults).bugVotes.filter
              (fun p => T ≤ p.2.voteCount)).map (·.2.bug)
        warned := false } := by
  unfold applyMajorityVoting
  by_cases h0 : (passResults.filter (fun r => !r.failed)).length = 0
  · have hfil : passResults.filter (fun r => !r.failed) = [] :=
      List.length_eq_zero.mp h0
    have hvs : votingState ids passResults = VoteState.empty := by
      unfold votingState
      rw [hfil]
      rfl
    simp [h0, hvs, VoteState.empty]
  · have hnl : ¬ ((passResults.filter (fun r => !r.failed)).length < T) :=
      Nat.not_lt.mpr hT
    simp [h0, hnl]

/-- C2: two line-based reports with identical normalized file path and
50-character title fingerprint whose start lines are adjacent and straddle a
bucket boundary (start lines l and l+1 with l congruent to 4 modulo 5) share
a candidate key, so the two reports land in the same cluster: aggregating
one pass per report yields a single cluster with two votes from passes 0 and
1, and with threshold 2 the representative survives. -/
theorem C2_boundary_tolerance (ids : Nat → String) (r1 r2 : RawBug) (l : Int)
    (hfile : trimStr (toLowerStr r1.filePath) = trimStr (toLowerStr r2.filePath))
    (htitle : takeStr (trimStr (toLowerStr r1.title)) TITLE_SIMILARITY_LENGTH =
      takeStr (trimStr (toLowerStr r2.title)) TITLE_SIMILARITY_LENGTH)
    (hl1 : r1.startLine = some l) (hl2 : r2.startLine = some (l + 1))
    (hmod : l % 5 = 4) :
    (∃ k, k ∈ keysOfRaw r1 ∧ k ∈ keysOfRaw r2) ∧
    (votingState ids [⟨0, [r1], false⟩, ⟨1, [r2], false⟩]).bugVotes.map
        (fun q => (q.2.voteCount, q.2.passIndices)) = [(2, [0, 1])] ∧
    (applyMajorityVoting ids [⟨0, [r1], false⟩, ⟨1, [r2], false⟩] 2).bugs =
      [mkBug (ids 0) r1] := by
  obtain ⟨q, hq⟩ : ∃ q : Int, l = 5 * q + 4 := ⟨(l - 4) / 5, by omega⟩
  have hfd2 : (LINE_BUCKET_SIZE.fdiv 2) = 2 := by decide
  have e1 : Int.fdiv l LINE_BUCKET_SIZE = q := by
    have h5 : Int.fdiv l 5 = l / 5 := Int.fdiv_eq_ediv _ (by norm_num)
    simp only [LINE_BUCKET_SIZE, h5]
    omega
  have e2 : Int.fdiv (l + 2) LINE_BUCKET_SIZE = q + 1 := by
    have h5 : Int.fdiv (l + 2) 5 = (l + 2) / 5 := Int.fdiv_eq_ediv _ (by norm_num)
    simp only [LINE_BUCKET_SIZE, h5]
    omega
  have e3 : Int.fdiv (l + 1) LINE_BUCKET_SIZE = q + 1 := by
    have h5 : Int.fdiv (l + 1) 5 = (l + 1) / 5 := Int.fdiv_eq_ediv _ (by norm_num)
    simp only [LINE_BUCKET_SIZE, h5]
    omega
  have e4 : Int.fdiv (l + 1 + 2) LINE_BUCKET_SIZE = q + 1 := by
    have h5 : Int.fdiv (l + 1 + 2) 5 = (l + 1 + 2) / 5 :=
      Int.fdiv_eq_ediv _ (by norm_num)
    simp only [LINE_BUCKET_SIZE, h5]
    omega
  set f := trimStr (toLowerStr r1.filePath) with hfdef
  set pfx := takeStr (trimStr (toLowerStr r1.title)) TITLE_SIMILARITY_LENGTH
    with hpdef
  set kP := f ++ ":" ++ toString q ++ ":" ++ pfx with hkP
  set kS := f ++ ":" ++ toString (q + 1) ++ ":" ++ pfx with hkS
  set kN := f ++ ":null:" ++ pfx with hkN
  have hSN : kS ≠ kN := bucketKey_ne_nullKey f pfx (q + 1)
  have hq1 : q + 1 ≠ q := by omega
  have hkeys1 : ∀ i, createBugSimilarityKeys (mkBug i r1) = [kP, kS] := by
    intro i
    simp only [createBugSimilarityKeys, mkBug, hl1, hfd2, e1, e2]
    simp [hq1, hkP, hkS]
  have hkeys2 : ∀ i, createBugSimilarityKeys (mkBug i r2) = [kS] := by
    intro i
    simp only [createBugSimilarityKeys, mkBug, hl2, hfd2, e3, e4]
    simp [hkS, ← hfile, ← htitle]
  have hnull1 : ∀ i, createNullSentinelKey (mkBug i r1) = kN := by
    intro i
    simp [createNullSentinelKey, mkBug, hkN]
  have hv : votingState ids [⟨0, [r1], false⟩, ⟨1, [r2], false⟩] =
      processBug (processBug VoteState.empty 0 (mkBug (ids 0) r1)) 1
        (mkBug (ids 1) r2) := rfl
  have hff1 : findCanonicalKey VoteState.empty (mkBug (ids 0) r1) = none := by
    unfold findCanonicalKey
    rw [hkeys1 (ids 0)]
    simp [VoteState.empty, mapGet, mkBug, hl1]
  set s1 := processBug VoteState.empty 0 (mkBug (ids 0) r1) with hs1def
  have hbv1 : s1.bugVotes =
      [(kP, ⟨mkBug (ids 0) r1, 1, [0]⟩)] := by
    rw [hs1def, processBug_new_bugVotes _ _ _ kP [kS] (hkeys1 (ids 0)) hff1]
    rfl
  have halias1 : mapGet s1.keyAlias kS = some kP := by
    rw [hs1def, processBug_new_keyAlias _ _ _ kP [kS] (hkeys1 (ids 0)) hff1 kS]
    rw [hkeys1 (ids 0)]
    simp
  have hff2 : findCanonicalKey s1 (mkBug (ids 1) r2) = some kP := by
    have hfs : (createBugSimilarityKeys (mkBug (ids 1) r2)).findSome?
        (fun k => mapGet s1.keyAlias k) = some kP := by
      rw [hkeys2 (ids 1)]
      simp [List.findSome?_cons, halias1]
    simp [findCanonicalKey, hfs]
  have hgv : mapGet s1.bugVotes kP = some ⟨mkBug (ids 0) r1, 1, [0]⟩ := by
    rw [hbv1]
    simp [mapGet]
  have hs2 : (processBug s1 1 (mkBug (ids 1) r2)).bugVotes =
      [(kP, ⟨mkBug (ids 0) r1, 2, [0, 1]⟩)] := by
    rw [processBug_bugVotes_merge _ _ _ kP _ hff2 hgv, hbv1]
    simp [mapSet, mergeEntry, mkBug, hl1]
  refine ⟨⟨kS, ?_, ?_⟩, ?_, ?_⟩
  · rw [show keysOfRaw r1 = [kP, kS] from hkeys1 ""]
    simp
  · rw [show keysOfRaw r2 = [kS] from hkeys2 ""]
    simp
  · rw [hv, hs2]
    rfl
  · have hlen : (([⟨0, [r1], false⟩, ⟨1, [r2], false⟩] :
        List AnalysisPassResult).filter (fun r => !r.failed)).length = 2 := rfl
    rw [applyMajorityVoting_filter ids _ 2 (by rw [hlen])]
    rw [hv, hs2]
    simp

theorem findCanonicalKey_empty (b : Bug) :
    findCanonicalKey VoteState.empty b = none := by
  have hfs : (createBugSimilarityKeys b).findSome?
      (fun k => mapGet (VoteState.empty).keyAlias k) = none := by
    rw [List.findSome?_eq_none_iff]
    intro x hx
    rfl
  unfold findCanonicalKey
  rw [hfs]
  cases b.startLine <;> rfl

theorem mem_keys_ne_null_str (bug : Bug) (l : Int) (h : bug.startLine = some l)
    (k : String) (hk : k ∈ createBugSimilarityKeys bug) :
    k ≠ trimStr (toLowerStr bug.filePath) ++ ":null:" ++
      takeStr (trimStr (toLowerStr bug.title)) TITLE_SIMILARITY_LENGTH := by
  simp only [createBugSimilarityKeys, h] at hk
  split at hk
  · rcases List.mem_cons.mp hk with h1 | h1
    · exact h1 ▸ bucketKey_ne_nullKey _ _ _
    · rcases List.mem_cons.mp h1 with h2 | h2
      · exact h2 ▸ bucketKey_ne_nullKey _ _ _
      · simp at h2
  · rcases List.mem_cons.mp hk with h1 | h1
    · exact h1 ▸ bucketKey_ne_nullKey _ _ _
    · simp at h1

/-- C3: two line-based reports with the same normalized file path and title
fingerprint whose candidate key sets are disjoint (start lines sharing
neither a primary nor a shifted bucket, e.g. lines 2 and 50) are never
clustered together: the null-sentinel fallback is rejected because the
existing representative has a line number, so aggregation produces two
separate clusters with one vote each, and with threshold 2 the output is
empty. -/
theorem C3_no_false_merge (ids : Nat → String) (r1 r2 : RawBug) (l1 l2 : Int)
    (hfile : trimStr (toLowerStr r1.filePath) = trimStr (toLowerStr r2.filePath))
    (htitle : takeStr (trimStr (toLowerStr r1.title)) TITLE_SIMILARITY_LENGTH =
      takeStr (trimStr (toLowerStr r2.title)) TITLE_SIMILARITY_LENGTH)
    (hl1 : r1.startLine = some l1) (hl2 : r2.startLine = some l2)
    (hdisj : ∀ k ∈ keysOfRaw r1, k ∉ keysOfRaw r2) :
    (votingState ids [⟨0, [r1], false⟩, ⟨1, [r2], false⟩]).bugVotes.map
        (fun q => (q.2.bug.startLine, q.2.voteCount, q.2.passIndices)) =
      [(some l1, 1, [0]), (some l2, 1, [1])] ∧
    (applyMajorityVoting ids [⟨0, [r1], false⟩, ⟨1, [r2], false⟩] 2).bugs =
      [] := by
  set f := trimStr (toLowerStr r1.filePath) with hfdef
  set pfx := takeStr (trimStr (toLowerStr r1.title)) TITLE_SIMILARITY_LENGTH
    with hpdef
  set kN := f ++ ":null:" ++ pfx with hkN
  have hnull1 : ∀ i, createNullSentinelKey (mkBug i r1) = kN := by
    intro i
    simp [createNullSentinelKey, mkBug, hkN]
  have hnull2 : ∀ i, createNullSentinelKey (mkBug i r2) = kN := by
    intro i
    simp [createNullSentinelKey, mkBug, hkN, ← hfile, ← htitle]
  have hne1 : ∀ k ∈ keysOfRaw r1, k ≠ kN := by
    intro k hk
    have := mem_keys_ne_null_str (mkBug "" r1) l1 hl1 k hk
    simpa [mkBug] using this
  have hne2 : ∀ k ∈ keysOfRaw r2, k ≠ kN := by
    intro k hk
    have := mem_keys_ne_null_str (mkBug "" r2) l2 hl2 k hk
    simp only [mkBug] at this
    rw [← hfile, ← htitle] at this
    exact this
  obtain ⟨k10, rest1, hks1⟩ : ∃ a as, keysOfRaw r1 = a :: as := by
    cases hc : keysOfRaw r1 with
    | nil => exact absurd hc (keys_ne_nil (mkBug "" r1))
    | cons a as => exact ⟨a, as, rfl⟩
  obtain ⟨k20, rest2, hks2⟩ : ∃ a as, keysOfRaw r2 = a :: as := by
    cases hc : keysOfRaw r2 with
    | nil => exact absurd hc (keys_ne_nil (mkBug "" r2))
    | cons a as => exact ⟨a, as, rfl⟩
  have hv : votingState ids [⟨0, [r1], false⟩, ⟨1, [r2], false⟩] =
      processBug (processBug VoteState.empty 0 (mkBug (ids 0) r1)) 1
        (mkBug (ids 1) r2) := rfl
  have hff1 : findCanonicalKey VoteState.empty (mkBug (ids 0) r1) = none :=
    findCanonicalKey_empty _
  set s1 := processBug VoteState.empty 0 (mkBug (ids 0) r1) with hs1def
  have hbv1 : s1.bugVotes = [(k10, ⟨mkBug (ids 0) r1, 1, [0]⟩)] := by
    rw [hs1def, processBug_new_bugVotes _ _ _ k10 rest1
      ((keys_mkBug (ids 0) r1).trans hks1) hff1]
    rfl
  have halias : ∀ x, mapGet s1.keyAlias x =
      if x ∈ keysOfRaw r1 then some k10
      else if x = kN then some k10
      else none := by
    intro x
    rw [hs1def, processBug_new_keyAlias _ _ _ k10 rest1
      ((keys_mkBug (ids 0) r1).trans hks1) hff1 x]
    rw [keys_mkBug (ids 0) r1, hnull1 (ids 0)]
    have hnm : kN ∉ keysOfRaw r1 := fun hmem => hne1 kN hmem rfl
    by_cases hx1 : x ∈ keysOfRaw r1
    · simp [hx1]
    · by_cases hxN : x = kN
      · simp [hx1, hxN, mkBug, hl1, hnm, VoteState.empty, mapGet]
      · simp [hx1, hxN, VoteState.empty, mapGet]
  have hff2 : findCanonicalKey s1 (mkBug (ids 1) r2) = none := by
    have hfs : (createBugSimilarityKeys (mkBug (ids 1) r2)).findSome?
        (fun k => mapGet s1.keyAlias k) = none := by
      rw [List.findSome?_eq_none_iff]
      intro x hx
      rw [keys_mkBug (ids 1) r2] at hx
      have hx1 : x ∉ keysOfRaw r1 := fun h => hdisj x h hx
      rw [halias x]
      simp [hx1, hne2 x hx]
    have hsl2 : (mkBug (ids 1) r2).startLine = some l2 := by
      simp [mkBug, hl2]
    have hgetN : mapGet s1.keyAlias kN = some k10 := by
      rw [halias kN]
      have hnm : kN ∉ keysOfRaw r1 := fun hmem => hne1 kN hmem rfl
      simp [hnm]
    have hgv : mapGet s1.bugVotes k10 =
        some ⟨mkBug (ids 0) r1, 1, [0]⟩ := by
      rw [hbv1]
      simp [mapGet]
    simp only [findCanonicalKey, hfs, hsl2, hnull2, hgetN, hgv]
    simp [mkBug, hl1]
  have hbv2 : (processBug s1 1 (mkBug (ids 1) r2)).bugVotes =
      [(k10, ⟨mkBug (ids 0) r1, 1, [0]⟩),
        (k20, ⟨mkBug (ids 1) r2, 1, [1]⟩)] := by
    rw [processBug_new_bugVotes _ _ _ k20 rest2
      ((keys_mkBug (ids 1) r2).trans hks2) hff2]
    rw [hbv1]
    have hne : k10 ≠ k20 := by
      intro h
      exact hdisj k10 (hks1 ▸ List.mem_cons_self _ _)
        (h ▸ hks2 ▸ List.mem_cons_self _ _)
    simp [mapSet, hne]
  constructor
  · rw [hv, hbv2]
    simp [mkBug, hl1, hl2]
  · have hlen : (([⟨0, [r1], false⟩, ⟨1, [r2], false⟩] :
        List AnalysisPassResult).filter (fun r => !r.failed)).length = 2 := rfl
    rw [applyMajorityVoting_filter ids _ 2 (by rw [hlen])]
    rw [hv, hbv2]
    simp

theorem mergeEntry_bug (e : BugWithVotes) (p : Nat) (b : Bug) :
    (mergeEntry e p b).bug =
      if e.bug.startLine = none ∧ b.startLine ≠ none then b else e.bug := by
  unfold mergeEntry
  by_cases hc : e.passIndices.contains p
  · simp only [hc, if_true]
    split_ifs <;> rfl
  · simp only [hc, Bool.false_eq_true, if_false]
    split_ifs <;> rfl

/-- C6: when a report merges into an existing cluster, the representative
is replaced by the incoming report if and only if the current representative
has no line number and the incoming report has one; in the end-to-end
example (pass 1 at line 12, pass 2 at line 11, pass 3 failed, threshold 2)
the single output bug is the line-12 representative with vote count 2. -/
theorem C6_representative (s : VoteState) (p : Nat) (b : Bug) (c : String)
    (e : BugWithVotes) (hf : findCanonicalKey s b = some c)
    (hg : mapGet s.bugVotes c = some e) :
    ((mapGet (processBug s p b).bugVotes c).map (·.bug) =
      some (if e.bug.startLine = none ∧ b.startLine ≠ none then b
        else e.bug)) ∧
    (applyMajorityVoting sampleIds
        [⟨0, [rbNullDeref12], false⟩, ⟨1, [rbNullDeref11], false⟩,
          ⟨2, [], true⟩] 2).bugs.map
        (fun bg => (bg.title, bg.filePath, bg.startLine)) =
      [("Null deref", "a.ts", some 12)] ∧
    (votingState sampleIds
        [⟨0, [rbNullDeref12], false⟩, ⟨1, [rbNullDeref11], false⟩,
          ⟨2, [], true⟩]).bugVotes.map (fun q => q.2.voteCount) = [2] := by
  refine ⟨?_, by decide, by decide⟩
  rw [processBug_bugVotes_merge s p b c e hf hg, mapGet_mapSet, if_pos rfl]
  simp [mergeEntry_bug]

theorem seedFromReport_mono (s : MergeState) (b : Bug) (k : String)
    (h : k ∈ s.keys) : k ∈ (seedFromReport s b).keys := by
  simp [seedFromReport, h]

theorem foldl_seed_mono (A : List Bug) (s : MergeState) (k : String)
    (h : k ∈ s.keys) : k ∈ (A.foldl seedFromReport s).keys := by
  induction A generalizing s with
  | nil => exact h
  | cons a as ih => exact ih _ (seedFromReport_mono s a k h)

theorem mem_seed (A : List Bug) (s : MergeState) (a : Bug) (ha : a ∈ A)
    (k : String)
    (hk : k ∈ createBugSimilarityKeys a ∨ k = createNullSentinelKey a) :
    k ∈ (A.foldl seedFromReport s).keys := by
  induction A generalizing s with
  | nil => simp at ha
  | cons x xs ih =>
    rcases List.mem_cons.mp ha with h1 | h1
    · subst h1
      refine foldl_seed_mono xs _ k ?_
      rcases hk with h2 | h2 <;> simp [seedFromReport, h2]
    · exact ih (seedFromReport s x) h1

theorem mergeFold (A : List Bug) (B : List Bug) (out : List Bug)
    (s : MergeState)
    (hkeys : ∀ a ∈ A, ∀ k,
      (k ∈ createBugSimilarityKeys a ∨ k = createNullSentinelKey a) →
      k ∈ s.keys) :
    ∃ B', (B.foldl mergeStep (out, s)).1 = out ++ B' ∧ B'.Sublist B ∧
      ∀ b ∈ B', ∀ a ∈ A, ∀ k ∈ createBugSimilarityKeys b,
        k ∉ createBugSimilarityKeys a ∧ k ≠ createNullSentinelKey a := by
  induction B generalizing out s with
  | nil => exact ⟨[], by simp, List.Sublist.refl _, by simp⟩
  | cons b bs ih =>
    by_cases hhit : (createBugSimilarityKeys b).any
        (fun k => s.keys.contains k)
    · have hstep : mergeStep (out, s) b = (out, s) := by
        simp only [mergeStep]
        rw [if_pos hhit]
      obtain ⟨B', h1, h2, h3⟩ := ih out s hkeys
      refine ⟨B', ?_, h2.cons b, h3⟩
      simp only [List.foldl_cons, hstep]
      exact h1
    · by_cases hnull : b.startLine ≠ none ∧
          createNullSentinelKey b ∈ s.nullOrigin
      · have hstep : mergeStep (out, s) b = (out, s) := by
          simp only [mergeStep]
          rw [if_neg (by simpa using hhit), if_pos hnull]
        obtain ⟨B', h1, h2, h3⟩ := ih out s hkeys
        refine ⟨B', ?_, h2.cons b, h3⟩
        simp only [List.foldl_cons, hstep]
        exact h1
      · have hstep : mergeStep (out, s) b =
            (out ++ [b], seedFromReport s b) := by
          simp only [mergeStep]
          rw [if_neg (by simpa using hhit), if_neg hnull]
        have hkeys' : ∀ a ∈ A, ∀ k,
            (k ∈ createBugSimilarityKeys a ∨ k = createNullSentinelKey a) →
            k ∈ (seedFromReport s b).keys :=
          fun a ha k hk => seedFromReport_mono s b k (hkeys a ha k hk)
        obtain ⟨B', h1, h2, h3⟩ := ih (out ++ [b]) (seedFromReport s b) hkeys'
        refine ⟨b :: B', ?_, h2.cons₂ b, ?_⟩
        · simp only [List.foldl_cons, hstep] at h1 ⊢
          rw [h1]
          simp
        · intro b' hb' a ha k hk
          rcases List.mem_cons.mp hb' with h4 | h4
          · subst h4
            have hnot : k ∉ s.keys := by
              intro hks
              exact hhit (List.any_eq_true.mpr
                ⟨k, hk, List.elem_eq_true_of_mem hks⟩)
            constructor
            · intro hmem
              exact hnot (hkeys a ha k (Or.inl hmem))
            · intro heq
              exact hnot (hkeys a ha k (Or.inr heq))
          · exact h3 b' h4 a ha k hk

/-- C8 (amended): cross-source merging returns A plus an in-order
subsequence of B each of whose elements matches nothing in A by candidate
key (nor via A's null-sentinel keys) — duplicates within B itself may also
be collapsed — with no vote counting; a bug appearing once in A and once in
B under a shared candidate key appears exactly once in the merged
output. -/
theorem C8_cross_merge (A B : List Bug) :
    (∃ B', crossMergeBugs A B = A ++ B' ∧ B'.Sublist B ∧
      ∀ b ∈ B', ∀ a ∈ A, ∀ k ∈ createBugSimilarityKeys b,
        k ∉ createBugSimilarityKeys a ∧ k ≠ createNullSentinelKey a) ∧
    ∀ a b : Bug,
      (∃ k ∈ createBugSimilarityKeys b, k ∈ createBugSimilarityKeys a) →
      crossMergeBugs [a] [b] = [a] := by
  constructor
  · unfold crossMergeBugs
    exact mergeFold A B A _ (fun a ha k hk => mem_seed A _ a ha k hk)
  · intro a b hshared
    obtain ⟨k, hk1, hk2⟩ := hshared
    have hka : k ∈ (seedFromReport ⟨[], []⟩ a).keys := by
      simp [seedFromReport, hk2]
    unfold crossMergeBugs
    simp only [List.foldl_cons, List.foldl_nil]
    have hstep : mergeStep ([a], seedFromReport ⟨[], []⟩ a) b =
        ([a], seedFromReport ⟨[], []⟩ a) := by
      simp only [mergeStep]
      rw [if_pos (List.any_eq_true.mpr
        ⟨k, hk1, List.elem_eq_true_of_mem hka⟩)]
    rw [hstep]

theorem keys_stripBug (b : Bug) :
    createBugSimilarityKeys (stripBug b) = createBugSimilarityKeys b := rfl

theorem nullKey_stripBug (b : Bug) :
    createNullSentinelKey (stripBug b) = createNullSentinelKey b := rfl

theorem mapGet_stripVotes (m : List (String × BugWithVotes)) (k : String) :
    mapGet (stripVotes m) k = (mapGet m k).map stripEntry := by
  induction m with
  | nil => rfl
  | cons p ps ih =>
    by_cases hp : p.1 = k
    · simp [mapGet, stripVotes, hp]
    · simp [mapGet, stripVotes, hp]
      exact ih

theorem mapSet_stripVotes (m : List (String × BugWithVotes)) (k : String)
    (v : BugWithVotes) :
    stripVotes (mapSet m k v) = mapSet (stripVotes m) k (stripEntry v) := by
  induction m with
  | nil => rfl
  | cons p ps ih =>
    by_cases hp : p.1 = k
    · simp [mapSet, stripVotes, hp]
    · simp [mapSet, stripVotes, hp]
      exact ih

theorem findCanonicalKey_strip (s : VoteState) (b : Bug) :
    findCanonicalKey (stripState s) (stripBug b) = findCanonicalKey s b := by
  simp only [findCanonicalKey, keys_stripBug, nullKey_stripBug]
  have hka : (stripState s).keyAlias = s.keyAlias := rfl
  have hsl : (stripBug b).startLine = b.startLine := rfl
  have hbv : (stripState s).bugVotes = stripVotes s.bugVotes := rfl
  rw [hka, hsl, hbv]
  cases hfs : (createBugSimilarityKeys b).findSome?
      (fun k => mapGet s.keyAlias k) with
  | some c => rfl
  | none =>
    cases hb : b.startLine with
    | none => rfl
    | some l =>
      cases hna : mapGet s.keyAlias (createNullSentinelKey b) with
      | none => rfl
      | some nullAlias =>
        simp only [mapGet_stripVotes]
        cases hge : mapGet s.bugVotes nullAlias with
        | none => rfl
        | some e =>
          have he : (stripEntry e).bug.startLine = e.bug.startLine := rfl
          simp [he]

theorem mergeEntry_strip (e : BugWithVotes) (p : Nat) (b : Bug) :
    stripEntry (mergeEntry e p b) =
      mergeEntry (stripEntry e) p (stripBug b) := by
  by_cases hm : p ∈ e.passIndices <;>
    by_cases h1 : e.bug.startLine = none <;>
      by_cases h2 : b.startLine = none <;>
        simp [mergeEntry, stripEntry, stripBug, hm, h1, h2]

theorem processBug_strip (s : VoteState) (p : Nat) (b : Bug) :
    stripState (processBug s p b) = processBug (stripState s) p (stripBug b) := by
  have hsl : (stripBug b).startLine = b.startLine := rfl
  cases hk : createBugSimilarityKeys b with
  | nil =>
    have hk' : createBugSimilarityKeys (stripBug b) = [] := hk
    simp [processBug, hk, hk']
  | cons k0 rest =>
    have hk' : createBugSimilarityKeys (stripBug b) = k0 :: rest := hk
    simp only [processBug, hk, hk', findCanonicalKey_strip, hsl,
      nullKey_stripBug]
    cases hf : findCanonicalKey s b with
    | none =>
      cases hb : b.startLine with
      | none =>
        simp [stripState, mapSet_stripVotes, stripEntry]
      | some l =>
        simp only [stripState]
        split_ifs with h
        · simp [stripState, mapSet_stripVotes, stripEntry]
        · simp [stripState, mapSet_stripVotes, stripEntry]
    | some c =>
      cases hg : mapGet s.bugVotes c with
      | none =>
        have hg' : mapGet (stripState s).bugVotes c = none := by
          have : (stripState s).bugVotes = stripVotes s.bugVotes := rfl
          rw [this, mapGet_stripVotes, hg]
          rfl
        simp only [hg, hg']
        cases hb : b.startLine with
        | none => rfl
        | some l =>
          simp only [stripState]
          split_ifs with h
          · rfl
          · simp [stripState]
      | some e =>
        have hg' : mapGet (stripState s).bugVotes c = some (stripEntry e) := by
          have : (stripState s).bugVotes = stripVotes s.bugVotes := rfl
          rw [this, mapGet_stripVotes, hg]
          rfl
        simp only [hg, hg']
        cases hb : b.startLine with
        | none =>
          simp [stripState, mapSet_stripVotes, mergeEntry_strip]
        | some l =>
          simp only [stripState]
          split_ifs with h
          · simp [stripState, mapSet_stripVotes, mergeEntry_strip]
          · simp [stripState, mapSet_stripVotes, mergeEntry_strip]

theorem mkBug_strip (i : String) (raw : RawBug) :
    stripBug (mkBug i raw) = mkBug "" raw := rfl

theorem votingState_strip (ids : Nat → String)
    (P : List AnalysisPassResult) :
    stripState (votingState ids P) = votingState (fun _ => "") P := by
  unfold votingState
  have inner : ∀ (pi : Nat) (bs : List RawBug) (a : VoteState × Nat),
      bs.foldl
        (fun (p : VoteState × Nat) raw =>
          (processBug p.1 pi (mkBug "" raw), p.2 + 1))
        (stripState a.1, a.2) =
      ((stripState ((bs.foldl
          (fun (p : VoteState × Nat) raw =>
            (processBug p.1 pi (mkBug (ids p.2) raw), p.2 + 1)) a).1)),
        ((bs.foldl
          (fun (p : VoteState × Nat) raw =>
            (processBug p.1 pi (mkBug (ids p.2) raw), p.2 + 1)) a).2)) := by
    intro pi bs
    induction bs with
    | nil => intro a; rfl
    | cons raw bs ih =>
      intro a
      simp only [List.foldl_cons]
      have hstep : processBug (stripState a.1) pi (mkBug "" raw) =
          stripState (processBug a.1 pi (mkBug (ids a.2) raw)) := by
        rw [← mkBug_strip (ids a.2) raw, ← processBug_strip]
      rw [hstep]
      exact ih (processBug a.1 pi (mkBug (ids a.2) raw), a.2 + 1)
  have main : ∀ (rs : List AnalysisPassResult) (a : VoteState × Nat),
      (rs.foldl (processPassBugs (fun _ => "")) (stripState a.1, a.2)).1 =
      stripState ((rs.foldl (processPassBugs ids) a).1) := by
    intro rs
    induction rs with
    | nil => intro a; rfl
    | cons r rs ih =>
      intro a
      simp only [List.foldl_cons]
      unfold processPassBugs
      rw [inner r.passIndex r.bugs a]
      exact ih _
  have hmain := main (P.filter (fun r => !r.failed)) (VoteState.empty, 0)
  have h0 : stripState VoteState.empty = VoteState.empty := rfl
  rw [h0] at hmain
  exact hmain.symm

theorem filter_map_stripVotes (m : List (String × BugWithVotes)) (T : Nat) :
    ((stripVotes m).filter (fun p => T ≤ p.2.voteCount)).map
        (fun p => p.2.bug) =
      (m.filter (fun p => T ≤ p.2.voteCount)).map
        (fun p => stripBug p.2.bug) := by
  induction m with
  | nil => rfl
  | cons p ps ih =>
    by_cases hT : T ≤ p.2.voteCount <;>
      simp [stripVotes, stripEntry, hT, ih] <;>
      simpa [stripVotes] using ih

/-- C10: running the vote aggregation twice on the same ordered sequence of
per-pass results produces the same clusters, vote counts, pass attributions
and representative contents in the same order, the freshly assigned
identifiers excepted: for any two identifier supplies the aggregation
states and outputs agree after erasing the identifier field. -/
theorem C10_deterministic (ids ids' : Nat → String)
    (P : List AnalysisPassResult) (T : Nat) :
    stripState (votingState ids P) = stripState (votingState ids' P) ∧
    (applyMajorityVoting ids P T).bugs.map stripBug =
      (applyMajorityVoting ids' P T).bugs.map stripBug ∧
    (applyMajorityVoting ids P T).warned =
      (applyMajorityVoting ids' P T).warned := by
  have h1 : stripState (votingState ids P) = stripState (votingState ids' P) := by
    rw [votingState_strip, votingState_strip]
  refine ⟨h1, ?_, ?_⟩
  · unfold applyMajorityVoting
    by_cases h0 : (P.filter (fun r => !r.failed)).length = 0
    · simp [h0]
    · by_cases hlt : (P.filter (fun r => !r.failed)).length < T
      · simp [h0, hlt]
      · have key : ∀ idsX : Nat → String,
            (((votingState idsX P).bugVotes.filter
                (fun p => T ≤ p.2.voteCount)).map (fun p => p.2.bug)).map
              stripBug =
            ((stripState (votingState idsX P)).bugVotes.filter
                (fun p => T ≤ p.2.voteCount)).map (fun p => p.2.bug) := by
          intro idsX
          rw [List.map_map]
          exact (filter_map_stripVotes _ T).symm
        simp only [h0, hlt, if_false]
        rw [key ids, key ids', h1]
  · unfold applyMajorityVoting
    by_cases h0 : (P.filter (fun r => !r.failed)).length = 0
    · simp [h0]
    · by_cases hlt : (P.filter (fun r => !r.failed)).length < T <;>
        simp [h0, hlt]

/-- C1: for every ordered sequence of per-pass results in which at least T
passes succeed, every cluster's recorded pass indices are distinct and its
vote count equals their number (at most one vote per pass per cluster), the
final output consists of exactly the representatives of clusters whose vote
count is at least T, and a pass whose report list contains the same bug
twice contributes exactly one vote to its cluster (closed instance: pass 0
reports the same bug twice, pass 1 once, giving one cluster with vote count
2 from passes 0 and 1). -/
theorem C1_majority_voting (ids : Nat → String)
    (passResults : List AnalysisPassResult) (T : Nat)
    (hT : T ≤ (passResults.filter (fun r => !r.failed)).length) :
    clusterInvariant (votingState ids passResults) ∧
    applyMajorityVoting ids passResults T =
      { bugs :=
          ((votingState ids passResults).bugVotes.filter
              (fun p => T ≤ p.2.voteCount)).map (·.2.bug)
        warned := false } ∧
    (votingState sampleIds
        [⟨0, [rbDup, rbDup], false⟩, ⟨1, [rbDup], false⟩]).bugVotes.map
        (fun p => (p.2.voteCount, p.2.passIndices)) = [(2, [0, 1])] :=
  ⟨votingState_invariant ids passResults,
    applyMajorityVoting_filter ids passResults T hT, by decide⟩

/-- C1 witness: the hypothesis holds at a concrete two-pass input and the
output characterization follows from the theorem there. -/
theorem C1_majority_voting_witness :
    2 ≤ (([⟨0, [rbDup], false⟩, ⟨1, [rbDup], false⟩] :
        List AnalysisPassResult).filter (fun r => !r.failed)).length ∧
    applyMajorityVoting sampleIds
        [⟨0, [rbDup], false⟩, ⟨1, [rbDup], false⟩] 2 =
      { bugs :=
          ((votingState sampleIds
              [⟨0, [rbDup], false⟩, ⟨1, [rbDup], false⟩]).bugVotes.filter
              (fun p => 2 ≤ p.2.voteCount)).map (·.2.bug)
        warned := false } :=
  ⟨by decide,
    (C1_majority_voting sampleIds
        [⟨0, [rbDup], false⟩, ⟨1, [rbDup], false⟩] 2 (by decide)).2.1⟩

/-- C2 witness: lines 9 and 10 in the same file with the same title satisfy
the boundary-straddling hypotheses, and both votes are counted. -/
theorem C2_boundary_tolerance_witness :
    ((9 : Int) % 5 = 4) ∧
    (votingState sampleIds
        [⟨0, [rbLine9], false⟩, ⟨1, [rbLine10], false⟩]).bugVotes.map
        (fun q => (q.2.voteCount, q.2.passIndices)) = [(2, [0, 1])] :=
  ⟨by decide,
    (C2_boundary_tolerance sampleIds rbLine9 rbLine10 9 (by decide)
        (by decide) (by decide) (by decide) (by decide)).2.1⟩

/-- C3 witness: lines 2 and 50 in the same file with the same title have
disjoint candidate key sets and end up in two separate one-vote clusters. -/
theorem C3_no_false_merge_witness :
    (votingState sampleIds
        [⟨0, [rbLine2], false⟩, ⟨1, [rbLine50], false⟩]).bugVotes.map
        (fun q => (q.2.bug.startLine, q.2.voteCount, q.2.passIndices)) =
      [(some 2, 1, [0]), (some 50, 1, [1])] :=
  (C3_no_false_merge sampleIds rbLine2 rbLine50 2 50 (by decide)
      (by decide) (by decide) (by decide) (by decide)).1

/-- C4 counterexample: with one failed pass and threshold 1 the number of
successful passes (zero) is strictly below the threshold, yet the
aggregation returns without surfacing the unreachable-threshold warning,
contradicting the claim that a warning is surfaced whenever the successful
count is below T. -/
theorem C4_counterexample :
    (([⟨0, [rbDup], true⟩] : List AnalysisPassResult).filter
        (fun r => !r.failed)).length < 1 ∧
    (applyMajorityVoting sampleIds [⟨0, [rbDup], true⟩] 1).warned = false := by
  decide

/-- C4 (amended): whenever the number of successful passes is strictly below
T, the aggregation returns an empty bug list rather than throwing; the
unreachable-threshold warning is surfaced exactly when at least one pass
succeeded (with zero successful passes the empty list is returned without
the warning). -/
theorem C4_unreachable_threshold (ids : Nat → String)
    (passResults : List AnalysisPassResult) (T : Nat)
    (hlt : (passResults.filter (fun r => !r.failed)).length < T) :
    (applyMajorityVoting ids passResults T).bugs = [] ∧
    ((applyMajorityVoting ids passResults T).warned = true ↔
      0 < (passResults.filter (fun r => !r.failed)).length) := by
  unfold applyMajorityVoting
  by_cases h0 : (passResults.filter (fun r => !r.failed)).length = 0
  · simp [h0]
  · simp [h0, hlt, Nat.pos_of_ne_zero h0]

/-- C4 witness: one successful pass out of three with threshold 2 yields the
empty list and the warning. -/
theorem C4_unreachable_threshold_witness :
    (([⟨0, [rbDup], false⟩, ⟨1, [], true⟩, ⟨2, [], true⟩] :
        List AnalysisPassResult).filter (fun r => !r.failed)).length < 2 ∧
    (applyMajorityVoting sampleIds
        [⟨0, [rbDup], false⟩, ⟨1, [], true⟩, ⟨2, [], true⟩] 2).bugs = [] ∧
    (applyMajorityVoting sampleIds
        [⟨0, [rbDup], false⟩, ⟨1, [], true⟩, ⟨2, [], true⟩] 2).warned =
      true := by
  refine ⟨by decide, ?_⟩
  have h := C4_unreachable_threshold sampleIds
    [⟨0, [rbDup], false⟩, ⟨1, [], true⟩, ⟨2, [], true⟩] 2 (by decide)
  exact ⟨h.1, h.2.mpr (by decide)⟩

/-- C5: for every bug report with no start line, the candidate key list is
exactly the singleton null-sentinel key; for every line-based report the
candidate key list never contains the null-sentinel key. -/
theorem C5_null_sentinel_keys (bug : Bug) :
    (bug.startLine = none →
      createBugSimilarityKeys bug = [createNullSentinelKey bug]) ∧
    (∀ l, bug.startLine = some l →
      createNullSentinelKey bug ∉ createBugSimilarityKeys bug) := by
  constructor
  · intro h
    exact keys_of_none bug h
  · intro l h
    exact nullKey_not_mem_keys bug l h

/-- C5 witness: a concrete null-line report and a concrete line-based report
discharge the two hypotheses. -/
theorem C5_null_sentinel_keys_witness :
    createBugSimilarityKeys bugNullLine = [createNullSentinelKey bugNullLine] ∧
    createNullSentinelKey bugLine7 ∉ createBugSimilarityKeys bugLine7 :=
  ⟨(C5_null_sentinel_keys bugNullLine).1 rfl,
    (C5_null_sentinel_keys bugLine7).2 7 rfl⟩

/-- C6 witness: a cluster whose representative has no line number receives a
line-based report, and the representative is replaced according to the
rule. -/
theorem C6_representative_witness :
    (mapGet (processBug
        ⟨[("c.ts:null:missing check", ⟨bugNullLine, 1, [0]⟩)],
          [("c.ts:null:missing check", "c.ts:null:missing check")]⟩ 1
        bugLine7).bugVotes "c.ts:null:missing check").map (·.bug) =
      some (if (⟨bugNullLine, 1, [0]⟩ : BugWithVotes).bug.startLine = none ∧
          bugLine7.startLine ≠ none then bugLine7
        else (⟨bugNullLine, 1, [0]⟩ : BugWithVotes).bug) :=
  (C6_representative
      ⟨[("c.ts:null:missing check", ⟨bugNullLine, 1, [0]⟩)],
        [("c.ts:null:missing check", "c.ts:null:missing check")]⟩ 1 bugLine7
      "c.ts:null:missing check" ⟨bugNullLine, 1, [0]⟩ (by decide)
      (by decide)).1

/-- C7: the computed overall risk level agrees with the spec's priority rule
with first match winning on every bug list, and the empty list yields
low. -/
theorem C7_risk_level :
    (∀ bugs : List Bug, calculateRiskLevel bugs = riskLevelSpec bugs) ∧
    calculateRiskLevel [] = RiskLevel.low := by
  constructor
  · intro bugs
    cases bugs with
    | nil => decide
    | cons b l => simp [calculateRiskLevel, riskLevelSpec]
  · decide

/-- C8 counterexample: with A empty, every element of B matches nothing in
A, so the claim as stated predicts the merged output A plus all of B; but
two same-key reports inside B are collapsed by the merger's own key
registration, so the output keeps only the first. -/
theorem C8_counterexample :
    crossMergeBugs [] [bugA, bugB] = [bugA] ∧
    crossMergeBugs [] [bugA, bugB] ≠ [] ++ [bugA, bugB] := by decide

/-- C8 witness: two reports of the same bug at adjacent lines in sources A
and B share a candidate key, and the merged output contains the bug exactly
once. -/
theorem C8_cross_merge_witness :
    crossMergeBugs [bugA] [bugB] = [bugA] :=
  (C8_cross_merge [] []).2 bugA bugB (by decide)

/-- C9 counterexample: a raw per-pass report tuple supplying an endLine
without a startLine yields an output bug whose startLine is absent while
its endLine is present, violating the data-model invariant the claim
asserts. -/
theorem C9_counterexample :
    ∃ b ∈ (applyMajorityVoting sampleIds
        [⟨0, [rawNoStart], false⟩, ⟨1, [rawNoStart], false⟩] 2).bugs,
      b.startLine = none ∧ b.endLine ≠ none := by decide

/-- C9 (amended): bug construction copies startLine and endLine through from
the raw tuple unchanged, so the invariant that an absent startLine forces an
absent endLine holds for a constructed record exactly when the raw tuple
itself omits endLine whenever it omits startLine. -/
theorem C9_mkBug_lines (id : String) (raw : RawBug) :
    (mkBug id raw).startLine = raw.startLine ∧
    (mkBug id raw).endLine = raw.endLine ∧
    (raw.startLine = none → raw.endLine = none →
      (mkBug id raw).startLine = none ∧ (mkBug id raw).endLine = none) := by
  refine ⟨rfl, rfl, ?_⟩
  intro h1 h2
  exact ⟨h1, h2⟩

/-- C9 witness: a raw tuple omitting both line fields yields a record with
both fields absent. -/
theorem C9_mkBug_lines_witness :
    (mkBug "b0"
        { title := "t", severity := .low, description := "d",
          filePath := "f", startLine := none, endLine := none }).startLine =
        none ∧
    (mkBug "b0"
        { title := "t", severity := .low, description := "d",
          filePath := "f", startLine := none, endLine := none }).endLine =
        none :=
  (C9_mkBug_lines "b0"
      { title := "t", severity := .low, description := "d",
        filePath := "f", startLine := none, endLine := none }).2.2 rfl rfl
